import Mathlib

set_option linter.unusedVariables false

/-!
Shallow embedding of `src/controller/admin/metalController.js` (the Metal CRUD
controller) and proofs about its handlers.

Modelling choices, documented once here:

* JavaScript values are modelled by `JsVal` (undefined, null, booleans, numbers
  as `Int`, strings, objects as association lists, arrays as lists).  Object
  keys are `Key`: a `named` key for literal property names and an `index` key
  for the integer-valued keys produced by spreading an array or a string into
  an object literal (in JavaScript those keys are numeric strings, which never
  collide with identifier keys such as "addedBy"; the two constructors encode
  that disjointness).
* A handler body runs in `Eff`, an exception monad (thrown errors carry their
  message string) that also threads an append-only log of the calls made to the
  external collaborators (the Joi validators, `dbService`, and
  `deleteDependentService`).  The collaborators themselves are an `Oracle` of
  unconstrained response functions, so theorems quantify over every behaviour
  of the external layer.
* `handle` wraps a handler body in the uniform `try { ... } catch (error) {
  return res.internalServerError({ message: error.message }) }` of the source.
* The `res.*` helpers build response envelopes; they are modelled by the
  `Resp` constructors carrying exactly the data the source passes them.
-/

/-- Object keys: literal property names, or the numeric keys created by
spreading an array/string into an object literal. -/
inductive Key where
  | named (s : String)
  | index (n : Nat)
deriving DecidableEq

/-- JavaScript values, as used by the controller. -/
inductive JsVal where
  | vundefined
  | vnull
  | vbool (b : Bool)
  | vnum (n : Int)
  | vstr (s : String)
  | vobj (fields : List (Key × JsVal))
  | varr (elems : List JsVal)

/-- JavaScript truthiness (`NaN` is not representable in the `Int` model). -/
def truthy : JsVal → Bool
  | .vundefined => false
  | .vnull => false
  | .vbool b => b
  | .vnum n => decide (n ≠ 0)
  | .vstr s => decide (s ≠ "")
  | .vobj _ => true
  | .varr _ => true

/-- First binding of a key in an association list (keys built by the
controller are unique, so first = last). -/
def olook : List (Key × JsVal) → Key → Option JsVal
  | [], _ => none
  | (k2, v) :: rest, k => if k2 = k then some v else olook rest k

/-- Remove every binding of a key (the JavaScript `delete` operator). -/
def odel : List (Key × JsVal) → Key → List (Key × JsVal)
  | [], _ => []
  | (k2, v) :: rest, k => if k2 = k then odel rest k else (k2, v) :: odel rest k

/-- Set a key, overwriting any binding a spread source supplied
(`{ ...obj, k: v }`). -/
def oset (fs : List (Key × JsVal)) (k : Key) (v : JsVal) : List (Key × JsVal) :=
  odel fs k ++ [(k, v)]

/-- Index-keyed fields produced by spreading an array into an object literal. -/
def enumFieldsFrom : Nat → List JsVal → List (Key × JsVal)
  | _, [] => []
  | i, v :: rest => (Key.index i, v) :: enumFieldsFrom (i + 1) rest

/-- Own enumerable fields copied by an object spread `{ ...v }`:
objects give their fields, arrays and strings give index-keyed elements,
other values contribute nothing. -/
def spreadFields : JsVal → List (Key × JsVal)
  | .vobj fs => fs
  | .varr es => enumFieldsFrom 0 es
  | .vstr s => enumFieldsFrom 0 (s.data.map (fun c => JsVal.vstr (String.mk [c])))
  | _ => []

/-- Property read on a value that is not undefined/null: object lookup
(defaulting to undefined), `length` on arrays, undefined on primitives. -/
def getF : JsVal → String → JsVal
  | .vobj fs, k => (olook fs (.named k)).getD .vundefined
  | .varr es, k => if k = "length" then .vnum es.length else .vundefined
  | _, _ => .vundefined

/-- Property read `v.k`: throws a TypeError on undefined/null. -/
def jsGet (v : JsVal) (k : String) : Except String JsVal :=
  match v with
  | .vundefined => .error ("Cannot read properties of undefined (reading " ++ k ++ ")")
  | .vnull => .error ("Cannot read properties of null (reading " ++ k ++ ")")
  | _ => .ok (getF v k)

/-- `delete v[k]`: throws on undefined/null, removes the key from an object,
no-op otherwise. -/
def jsDelete (v : JsVal) (k : String) : Except String JsVal :=
  match v with
  | .vundefined => .error "Cannot convert undefined or null to object"
  | .vnull => .error "Cannot convert undefined or null to object"
  | .vobj fs => .ok (.vobj (odel fs (.named k)))
  | w => .ok w

/-- Array spread `[ ...v ]`: arrays and strings are iterable, everything else
throws a TypeError. -/
def spreadArr : JsVal → Except String (List JsVal)
  | .varr es => .ok es
  | .vstr s => .ok (s.data.map (fun c => JsVal.vstr (String.mk [c])))
  | _ => .error "value is not iterable"

/-- The idiom `typeof x === 'object' && x !== null ? { ...x } : {}` used for
`query`, `options` and `where`: copy the fields of an object (or array), else
an empty object. -/
def jsQueryObj (v : JsVal) : JsVal :=
  JsVal.vobj (match v with
    | .vobj fs => fs
    | .varr es => enumFieldsFrom 0 es
    | _ => [])

/-- Which Joi schema a `validateParamsWithJoi` call is given. -/
inductive SchemaId where
  | schemaKeys
  | updateSchemaKeys
deriving DecidableEq

/-- Result object of the request validators (`{ isValid, message }`). -/
structure VRes where
  isValid : Bool
  message : String

/-- One call to an external collaborator, with its arguments.
`valFilter`'s flag records whether `Metal.schema.obj` was passed as third
argument (`findAllMetal` passes it, `getMetalCount` does not). -/
inductive ExtCall where
  | valParams (schema : SchemaId) (payload : JsVal)
  | valFilter (withModel : Bool) (payload : JsVal)
  | dbCreate (data : JsVal)
  | dbCount (query : JsVal)
  | dbPaginate (query : JsVal) (options : JsVal)
  | dbFindOne (query : JsVal) (options : JsVal)
  | dbUpdateOne (query : JsVal) (data : JsVal)
  | dbUpdateMany (filter : JsVal) (data : JsVal)
  | ddsSoftDeleteMetal (query : JsVal) (updateBody : JsVal)
  | ddsCountMetal (query : JsVal)
  | ddsDeleteMetal (query : JsVal)

/-- Calls that reach the persistence layer (`dbService` or
`deleteDependentService`), as opposed to the pure validators. -/
def isPersist : ExtCall → Bool
  | .valParams _ _ => false
  | .valFilter _ _ => false
  | _ => true

/-- The external collaborators, as unconstrained response functions.  A
`.error` response models the collaborator throwing. -/
structure Oracle where
  validateParams : SchemaId → JsVal → Except String VRes
  validateFilter : Bool → JsVal → Except String VRes
  objectIdValid : JsVal → Bool
  ext : ExtCall → Except String JsVal

/-- Handler-body computations: exception on thrown errors, plus the log of
collaborator calls made so far. -/
def Eff (α : Type) : Type := List ExtCall → Except String α × List ExtCall

def Eff.pure {α : Type} (a : α) : Eff α := fun log => (.ok a, log)

def Eff.bind {α β : Type} (x : Eff α) (f : α → Eff β) : Eff β := fun log =>
  match x log with
  | (.ok a, log2) => f a log2
  | (.error e, log2) => (.error e, log2)

/-- Lift a pure possibly-throwing step (a property read, a `delete`). -/
def liftE {α : Type} (e : Except String α) : Eff α := fun log => (e, log)

/-- Call `validation.validateParamsWithJoi` and log it. -/
def callValidateParams (o : Oracle) (sid : SchemaId) (payload : JsVal) : Eff VRes :=
  fun log => (o.validateParams sid payload, log ++ [.valParams sid payload])

/-- Call `validation.validateFilterWithJoi` and log it. -/
def callValidateFilter (o : Oracle) (withModel : Bool) (payload : JsVal) : Eff VRes :=
  fun log => (o.validateFilter withModel payload, log ++ [.valFilter withModel payload])

/-- Call `dbService` / `deleteDependentService` and log it. -/
def callExt (o : Oracle) (c : ExtCall) : Eff JsVal :=
  fun log => (o.ext c, log ++ [c])

/-- Response envelopes produced through the `res.*` helpers. -/
inductive Resp where
  | success (data : JsVal)
  | validationError (message : String)
  | recordNotFound
  | badRequest (message : Option String)
  | internalServerError (message : String)

/-- `addMetal` (source lines 20-36): spread the body (or `{}`), validate
against `schemaKeys`, stamp `addedBy = req.user.id`, create. -/
def addMetal (o : Oracle) (body params user : JsVal) : Eff Resp :=
  let dataToCreate := JsVal.vobj (if truthy body then spreadFields body else [])
  Eff.bind (callValidateParams o .schemaKeys dataToCreate) (fun validateRequest =>
  if !validateRequest.isValid then
    Eff.pure (.validationError ("Invalid values in parameters, " ++ validateRequest.message))
  else
    Eff.bind (liftE (jsGet user "id")) (fun uid =>
    let dataToCreate2 := JsVal.vobj (oset (spreadFields dataToCreate) (.named "addedBy") uid)
    Eff.bind (callExt o (.dbCreate dataToCreate2)) (fun createdMetal =>
    Eff.pure (.success createdMetal))))

/-- Stamp `addedBy: req.user.id` onto each element (the `for` loop of
`bulkInsertMetal`; `req.user.id` is re-read each iteration). -/
def addAddedBy (user : JsVal) : List JsVal → Except String (List JsVal)
  | [] => .ok []
  | e :: rest =>
    match jsGet user "id" with
    | .error m => .error m
    | .ok uid =>
      match addAddedBy user rest with
      | .error m => .error m
      | .ok ys => .ok (JsVal.vobj (oset (spreadFields e) (.named "addedBy") uid) :: ys)

/-- `bulkInsertMetal` (source lines 44-62).  The array guard runs only when
`req.body` is truthy (`req.body && (!Array.isArray(req.body.data) ||
req.body.data.length < 1)`); with a falsy body the guard is skipped and the
spread `[ ...req.body.data ]` throws. -/
def bulkInsertMetal (o : Oracle) (body params user : JsVal) : Eff Resp :=
  Eff.bind
    (if truthy body then
      Eff.bind (liftE (jsGet body "data")) (fun d =>
      Eff.pure (match d with
        | .varr es => decide (es.length < 1)
        | _ => true))
    else Eff.pure false) (fun guard =>
  if guard then Eff.pure (.badRequest none)
  else
    Eff.bind (liftE (jsGet body "data")) (fun d =>
    Eff.bind (liftE (spreadArr d)) (fun elems =>
    Eff.bind (liftE (addAddedBy user elems)) (fun dataToCreate =>
    Eff.bind (callExt o (.dbCreate (.varr dataToCreate))) (fun createdMetals =>
    Eff.bind
      (if truthy createdMetals then liftE (jsGet createdMetals "length")
       else Eff.pure (.vnum 0)) (fun len =>
    let cnt := if truthy len then len else JsVal.vnum 0
    Eff.pure (.success (.vobj [(.named "count", cnt)]))))))))

/-- `findAllMetal` (source lines 70-100): validate the filter (with
`Metal.schema.obj`), build `query`, take the count-only path when
`req.body.isCountOnly` is truthy, otherwise paginate and report
`recordNotFound` on a missing/empty `data` list. -/
def findAllMetal (o : Oracle) (body params user : JsVal) : Eff Resp :=
  Eff.bind (callValidateFilter o true body) (fun validateRequest =>
  if !validateRequest.isValid then
    Eff.pure (.validationError validateRequest.message)
  else
    Eff.bind (liftE (jsGet body "query")) (fun bq =>
    let query := jsQueryObj bq
    Eff.bind (liftE (jsGet body "isCountOnly")) (fun ico =>
    if truthy ico then
      Eff.bind (callExt o (.dbCount query)) (fun totalRecords =>
      Eff.pure (.success (.vobj [(.named "totalRecords", totalRecords)])))
    else
      Eff.bind
        (if truthy body then
          Eff.bind (liftE (jsGet body "options")) (fun bo =>
          Eff.pure (jsQueryObj bo))
        else Eff.pure (.vobj [])) (fun options =>
      Eff.bind (callExt o (.dbPaginate query options)) (fun foundMetals =>
      Eff.bind
        (if truthy foundMetals then
          Eff.bind (liftE (jsGet foundMetals "data")) (fun d =>
          if truthy d then
            Eff.bind (liftE (jsGet d "length")) (fun len =>
            Eff.pure (truthy len))
          else Eff.pure false)
        else Eff.pure false) (fun nonEmpty =>
      if nonEmpty then Eff.pure (.success foundMetals)
      else Eff.pure .recordNotFound))))))

/-- `getMetal` (source lines 108-125): reject an invalid ObjectId, then
`findOne` by `_id`. -/
def getMetal (o : Oracle) (body params user : JsVal) : Eff Resp :=
  Eff.bind (liftE (jsGet params "id")) (fun pid =>
  if !o.objectIdValid pid then
    Eff.pure (.validationError "invalid objectId.")
  else
    let query := JsVal.vobj [(.named "_id", pid)]
    Eff.bind (callExt o (.dbFindOne query (.vobj []))) (fun foundMetal =>
    if !truthy foundMetal then Eff.pure .recordNotFound
    else Eff.pure (.success foundMetal)))

/-- `getMetalCount` (source lines 133-151): validate the filter (without
`Metal.schema.obj`), then `count` with `req.body.where`. -/
def getMetalCount (o : Oracle) (body params user : JsVal) : Eff Resp :=
  Eff.bind (callValidateFilter o false body) (fun validateRequest =>
  if !validateRequest.isValid then
    Eff.pure (.validationError validateRequest.message)
  else
    Eff.bind (liftE (jsGet body "where")) (fun bw =>
    let whereQ := jsQueryObj bw
    Eff.bind (callExt o (.dbCount whereQ)) (fun countedMetal =>
    Eff.pure (.success (.vobj [(.named "count", countedMetal)])))))

/-- `updateMetal` (source lines 159-181): build `{ ...req.body, updatedBy:
req.user.id }`, validate against `updateSchemaKeys`, then `updateOne` by
`_id` — the id is never checked. -/
def updateMetal (o : Oracle) (body params user : JsVal) : Eff Resp :=
  Eff.bind (liftE (jsGet user "id")) (fun uid =>
  let dataToUpdate := JsVal.vobj (oset (spreadFields body) (.named "updatedBy") uid)
  Eff.bind (callValidateParams o .updateSchemaKeys dataToUpdate) (fun validateRequest =>
  if !validateRequest.isValid then
    Eff.pure (.validationError ("Invalid values in parameters, " ++ validateRequest.message))
  else
    Eff.bind (liftE (jsGet params "id")) (fun pid =>
    let query := JsVal.vobj [(.named "_id", pid)]
    Eff.bind (callExt o (.dbUpdateOne query dataToUpdate)) (fun updatedMetal =>
    if !truthy updatedMetal then Eff.pure .recordNotFound
    else Eff.pure (.success updatedMetal)))))

/-- `bulkUpdateMetal` (source lines 189-208).  The source deletes `addedBy`
from a freshly created empty object — a no-op, mirrored below — and then
builds the update from `req.body.data`, so a client-supplied `addedBy`
passes through. -/
def bulkUpdateMetal (o : Oracle) (body params user : JsVal) : Eff Resp :=
  Eff.bind
    (if truthy body then
      Eff.bind (liftE (jsGet body "filter")) (fun f =>
      Eff.pure (if truthy f then JsVal.vobj (spreadFields f) else JsVal.vobj []))
    else Eff.pure (.vobj [])) (fun filter =>
  let dataToUpdate0 := JsVal.vobj (odel [] (.named "addedBy"))
  Eff.bind
    (if truthy body then
      Eff.bind (liftE (jsGet body "data")) (fun d =>
      match d with
      | .vobj fs =>
        Eff.bind (liftE (jsGet user "id")) (fun uid =>
        Eff.pure (JsVal.vobj (oset fs (.named "updatedBy") uid)))
      | _ => Eff.pure dataToUpdate0)
    else Eff.pure dataToUpdate0) (fun dataToUpdate =>
  Eff.bind (callExt o (.dbUpdateMany filter dataToUpdate)) (fun updatedMetal =>
  if !truthy updatedMetal then Eff.pure .recordNotFound
  else Eff.pure (.success (.vobj [(.named "count", updatedMetal)])))))

/-- `partialUpdateMetal` (source lines 216-242).  The `if (!req.params.id)`
branch calls `res.badRequest` WITHOUT `return`, so its response is discarded
and execution continues; then `delete req.body.addedBy` strips the field
before the spread. -/
def partialUpdateMetal (o : Oracle) (body params user : JsVal) : Eff Resp :=
  Eff.bind (liftE (jsGet params "id")) (fun pid =>
  Eff.bind (liftE (jsDelete body "addedBy")) (fun bodyAfterDelete =>
  Eff.bind (liftE (jsGet user "id")) (fun uid =>
  let dataToUpdate := JsVal.vobj (oset (spreadFields bodyAfterDelete) (.named "updatedBy") uid)
  Eff.bind (callValidateParams o .updateSchemaKeys dataToUpdate) (fun validateRequest =>
  if !validateRequest.isValid then
    Eff.pure (.validationError ("Invalid values in parameters, " ++ validateRequest.message))
  else
    let query := JsVal.vobj [(.named "_id", pid)]
    Eff.bind (callExt o (.dbUpdateOne query dataToUpdate)) (fun updatedMetal =>
    if !truthy updatedMetal then Eff.pure .recordNotFound
    else Eff.pure (.success updatedMetal))))))

/-- `softDeleteMetal` (source lines 250-268): require a truthy id, then
delegate to `deleteDependentService.softDeleteMetal` with
`{ isDeleted: true, updatedBy: req.user.id }`. -/
def softDeleteMetal (o : Oracle) (body params user : JsVal) : Eff Resp :=
  Eff.bind (liftE (jsGet params "id")) (fun pid =>
  if !truthy pid then
    Eff.pure (.badRequest (some "Insufficient request parameters! id is required."))
  else
    let query := JsVal.vobj [(.named "_id", pid)]
    Eff.bind (liftE (jsGet user "id")) (fun uid =>
    let updateBody := JsVal.vobj [(.named "isDeleted", .vbool true), (.named "updatedBy", uid)]
    Eff.bind (callExt o (.ddsSoftDeleteMetal query updateBody)) (fun updatedMetal =>
    if !truthy updatedMetal then Eff.pure .recordNotFound
    else Eff.pure (.success updatedMetal))))

/-- `deleteMetal` (source lines 276-296): require a truthy id; with
`req.body.isWarning` truthy only count dependents, otherwise delete. -/
def deleteMetal (o : Oracle) (body params user : JsVal) : Eff Resp :=
  Eff.bind (liftE (jsGet params "id")) (fun pid =>
  if !truthy pid then
    Eff.pure (.badRequest (some "Insufficient request parameters! id is required."))
  else
    let query := JsVal.vobj [(.named "_id", pid)]
    Eff.bind (liftE (jsGet body "isWarning")) (fun iw =>
    Eff.bind
      (if truthy iw then callExt o (.ddsCountMetal query)
       else callExt o (.ddsDeleteMetal query)) (fun deletedMetal =>
    if !truthy deletedMetal then Eff.pure .recordNotFound
    else Eff.pure (.success deletedMetal))))

/-- `deleteManyMetal` (source lines 304-325): require a non-empty ids array;
with `req.body.isWarning` truthy only count dependents, otherwise delete. -/
def deleteManyMetal (o : Oracle) (body params user : JsVal) : Eff Resp :=
  Eff.bind (liftE (jsGet body "ids")) (fun ids =>
  if !truthy ids then Eff.pure (.badRequest none)
  else
    match ids with
    | .varr es =>
      if decide (es.length < 1) then Eff.pure (.badRequest none)
      else
        let query := JsVal.vobj [(.named "_id", .vobj [(.named "$in", .varr es)])]
        Eff.bind (liftE (jsGet body "isWarning")) (fun iw =>
        Eff.bind
          (if truthy iw then callExt o (.ddsCountMetal query)
           else callExt o (.ddsDeleteMetal query)) (fun deletedMetal =>
        if !truthy deletedMetal then Eff.pure .recordNotFound
        else Eff.pure (.success deletedMetal)))
    | _ => Eff.pure (.badRequest none))

/-- `softDeleteManyMetal` (source lines 333-352): require a non-empty ids
array, then delegate to `deleteDependentService.softDeleteMetal`. -/
def softDeleteManyMetal (o : Oracle) (body params user : JsVal) : Eff Resp :=
  Eff.bind (liftE (jsGet body "ids")) (fun ids =>
  if !truthy ids then Eff.pure (.badRequest none)
  else
    match ids with
    | .varr es =>
      if decide (es.length < 1) then Eff.pure (.badRequest none)
      else
        let query := JsVal.vobj [(.named "_id", .vobj [(.named "$in", .varr es)])]
        Eff.bind (liftE (jsGet user "id")) (fun uid =>
        let updateBody := JsVal.vobj [(.named "isDeleted", .vbool true), (.named "updatedBy", uid)]
        Eff.bind (callExt o (.ddsSoftDeleteMetal query updateBody)) (fun updatedMetal =>
        if !truthy updatedMetal then Eff.pure .recordNotFound
        else Eff.pure (.success updatedMetal)))
    | _ => Eff.pure (.badRequest none))

/-- The twelve exported handlers. -/
inductive Route where
  | addMetal | bulkInsertMetal | findAllMetal | getMetal | getMetalCount
  | updateMetal | bulkUpdateMetal | partialUpdateMetal | softDeleteMetal
  | deleteMetal | deleteManyMetal | softDeleteManyMetal
deriving DecidableEq

/-- The `try` body of each exported handler. -/
def handlerBody : Route → Oracle → JsVal → JsVal → JsVal → Eff Resp
  | .addMetal => addMetal
  | .bulkInsertMetal => bulkInsertMetal
  | .findAllMetal => findAllMetal
  | .getMetal => getMetal
  | .getMetalCount => getMetalCount
  | .updateMetal => updateMetal
  | .bulkUpdateMetal => bulkUpdateMetal
  | .partialUpdateMetal => partialUpdateMetal
  | .softDeleteMetal => softDeleteMetal
  | .deleteMetal => deleteMetal
  | .deleteManyMetal => deleteManyMetal
  | .softDeleteManyMetal => softDeleteManyMetal

/-- Run a handler: its body under the uniform
`catch (error) { return res.internalServerError({ message: error.message }) }`.
Returns the response and the log of collaborator calls. -/
def handle (a : Route) (o : Oracle) (body params user : JsVal) :
    Resp × List ExtCall :=
  match handlerBody a o body params user [] with
  | (.ok r, log) => (r, log)
  | (.error m, log) => (.internalServerError m, log)

/-- The persistence calls (to `dbService` / `deleteDependentService`) in a
log. -/
def persistCalls (log : List ExtCall) : List ExtCall :=
  log.filter isPersist

/-- Own property of an object value (used to state which fields an update
document carries). -/
def ownField (v : JsVal) (k : String) : Option JsVal :=
  match v with
  | .vobj fs => olook fs (.named k)
  | _ => none

/-- `Array.isArray(v) && v.length >= 1`, the shape the bulk guards demand. -/
def nonEmptyArray : JsVal → Bool
  | .varr es => decide (0 < es.length)
  | _ => false

/-- The documents a `dbService.create` argument carries: the elements of a
bulk array, or the single document itself. -/
def docsOf : JsVal → List JsVal
  | .varr es => es
  | v => [v]

/-- The truthiness test `foundMetals && foundMetals.data &&
foundMetals.data.length` applied to a paginate result. -/
def paginateHasData (r : JsVal) : Bool :=
  truthy r && truthy (getF r "data") && truthy (getF (getF r "data") "length")

/-! Concrete fixtures used by witness and counterexample theorems. -/

/-- A truthy document. -/
def docGold : JsVal := .vobj [(.named "name", .vstr "gold")]

/-- Collaborators that accept everything and find `docGold`. -/
def oFound : Oracle :=
  ⟨fun _ _ => .ok ⟨true, ""⟩, fun _ _ => .ok ⟨true, ""⟩, fun _ => true,
    fun _ => .ok docGold⟩

/-- Collaborators that accept everything but find nothing (falsy results). -/
def oMissing : Oracle :=
  ⟨fun _ _ => .ok ⟨true, ""⟩, fun _ _ => .ok ⟨true, ""⟩, fun _ => true,
    fun _ => .ok .vnull⟩

/-- Collaborators whose persistence layer throws. -/
def oBoom : Oracle :=
  ⟨fun _ _ => .ok ⟨true, ""⟩, fun _ _ => .ok ⟨true, ""⟩, fun _ => true,
    fun _ => .error "boom"⟩

/-- Collaborators whose validators reject everything (their persistence layer
answers a one-element array). -/
def oRejectAll : Oracle :=
  ⟨fun _ _ => .ok ⟨false, "bad"⟩, fun _ _ => .ok ⟨false, "bad"⟩, fun _ => true,
    fun _ => .ok (.varr [docGold])⟩

/-- A bulk-insert body `{ data: [{}] }`. -/
def bBulk : JsVal := .vobj [(.named "data", .varr [.vobj []])]

/-- Collaborators that accept everything but hold no ObjectId valid. -/
def oNoId : Oracle :=
  ⟨fun _ _ => .ok ⟨true, ""⟩, fun _ _ => .ok ⟨true, ""⟩, fun _ => false,
    fun _ => .ok docGold⟩

/-- A request params object carrying `id: "a"`. -/
def pIdA : JsVal := .vobj [(.named "id", .vstr "a")]

/-- A request user with `id: 7`. -/
def uSeven : JsVal := .vobj [(.named "id", .vnum 7)]

/-! ### Association-list and property-access lemmas -/

theorem olook_append (l1 l2 : List (Key × JsVal)) (k : Key) :
    olook (l1 ++ l2) k = (olook l1 k).elim (olook l2 k) some := by
  induction l1 with
  | nil => rfl
  | cons hd tl ih =>
    obtain ⟨k2, v⟩ := hd
    by_cases h : k2 = k
    · simp [olook, h]
    · simp [olook, h, ih]

theorem olook_odel (fs : List (Key × JsVal)) (k k2 : Key) :
    olook (odel fs k) k2 = if k2 = k then none else olook fs k2 := by
  induction fs with
  | nil => simp [odel, olook]
  | cons hd tl ih =>
    obtain ⟨k3, v⟩ := hd
    by_cases h3 : k3 = k
    · subst h3
      by_cases h2 : k2 = k3
      · subst h2; simp [odel, olook, ih]
      · have h2s : k3 ≠ k2 := fun hh => h2 hh.symm
        simp [odel, olook, h2, h2s, ih]
    · by_cases h2 : k2 = k3
      · subst h2
        simp [odel, olook, h3, ih]
      · have h2s : k3 ≠ k2 := fun hh => h2 hh.symm
        simp [odel, olook, h2, h2s, h3, ih]

theorem olook_oset_self (fs : List (Key × JsVal)) (k : Key) (v : JsVal) :
    olook (oset fs k v) k = some v := by
  simp [oset, olook_append, olook_odel, olook]

theorem olook_oset_ne (fs : List (Key × JsVal)) (k k2 : Key) (v : JsVal) (h : k2 ≠ k) :
    olook (oset fs k v) k2 = olook fs k2 := by
  have hs : k ≠ k2 := fun hh => h hh.symm
  cases hx : olook fs k2 <;>
    simp [oset, olook_append, olook_odel, olook, h, hs, hx]

theorem olook_enumFieldsFrom (es : List JsVal) (i : Nat) (s : String) :
    olook (enumFieldsFrom i es) (Key.named s) = none := by
  induction es generalizing i with
  | nil => rfl
  | cons hd tl ih => simp [enumFieldsFrom, olook, ih]

theorem spreadFields_jsDelete_none (v w : JsVal) (h : jsDelete v "addedBy" = .ok w) :
    olook (spreadFields w) (.named "addedBy") = none := by
  cases v <;> simp [jsDelete] at h <;> subst h <;>
    simp [spreadFields, olook, olook_odel, olook_enumFieldsFrom]

theorem jsGet_of_truthy (v : JsVal) (k : String) (h : truthy v = true) :
    jsGet v k = .ok (getF v k) := by
  cases v <;> simp_all [truthy, jsGet]

/-! ### Claims -/

/-- C8: every handler is a pure, stateless function of the request contents
and the collaborators' behaviour: the embedding carries no state besides the
request, the oracle and the call log, and two invocations with identical
request and identical collaborator responses yield identical responses and
calls. -/
theorem C8_handlers_deterministic (a : Route) (o1 o2 : Oracle)
    (b1 p1 u1 b2 p2 u2 : JsVal)
    (ho : o1 = o2) (hb : b1 = b2) (hp : p1 = p2) (hu : u1 = u2) :
    handle a o1 b1 p1 u1 = handle a o2 b2 p2 u2 := by
  subst ho hb hp hu; rfl

theorem C8_handlers_deterministic_witness :
    handle .getMetal oFound docGold pIdA uSeven =
      handle .getMetal oFound docGold pIdA uSeven :=
  C8_handlers_deterministic .getMetal oFound oFound docGold pIdA uSeven
    docGold pIdA uSeven rfl rfl rfl rfl

/-- C5: when the data-access layer returns no document — `findOne` falsy in
`getMetal`, or a paginate result without a non-empty `data` list in
`findAllMetal` (valid filter, `isCountOnly` unset) — the handler responds
`recordNotFound`, a constructor distinct from the `success` response produced
when a document is found. -/
theorem C5_not_found_lookup_distinct :
    (∀ (o : Oracle) (b p u pid v : JsVal),
      jsGet p "id" = .ok pid →
      o.objectIdValid pid = true →
      o.ext (.dbFindOne (.vobj [(.named "_id", pid)]) (.vobj [])) = .ok v →
      (truthy v = false →
        handle .getMetal o b p u =
          (.recordNotFound, [.dbFindOne (.vobj [(.named "_id", pid)]) (.vobj [])])) ∧
      (truthy v = true →
        handle .getMetal o b p u =
          (.success v, [.dbFindOne (.vobj [(.named "_id", pid)]) (.vobj [])])) ∧
      (∀ d, Resp.recordNotFound ≠ Resp.success d))
    ∧ (∀ (o : Oracle) (bf : List (Key × JsVal)) (p u : JsVal) (vr : VRes) (r : JsVal),
      o.validateFilter true (.vobj bf) = .ok vr →
      vr.isValid = true →
      truthy (getF (.vobj bf) "isCountOnly") = false →
      o.ext (.dbPaginate (jsQueryObj (getF (.vobj bf) "query"))
        (jsQueryObj (getF (.vobj bf) "options"))) = .ok r →
      (paginateHasData r = false →
        (handle .findAllMetal o (.vobj bf) p u).1 = .recordNotFound) ∧
      (paginateHasData r = true →
        (handle .findAllMetal o (.vobj bf) p u).1 = .success r)) := by
  constructor
  · intro o b p u pid v hpid hvalid hext
    refine ⟨fun htv => ?_, fun htv => ?_, fun d h => by cases h⟩ <;>
      simp [handle, handlerBody, getMetal, Eff.bind, Eff.pure, liftE, callExt,
        hpid, hvalid, hext, htv]
  · intro o bf p u vr r hval hok hico hext
    have hbt : truthy (JsVal.vobj bf) = true := rfl
    have hq : jsGet (JsVal.vobj bf) "query" = .ok (getF (JsVal.vobj bf) "query") := rfl
    have hi : jsGet (JsVal.vobj bf) "isCountOnly" =
        .ok (getF (JsVal.vobj bf) "isCountOnly") := rfl
    have ho2 : jsGet (JsVal.vobj bf) "options" =
        .ok (getF (JsVal.vobj bf) "options") := rfl
    have hrun : (handle .findAllMetal o (.vobj bf) p u).1 =
        (if paginateHasData r = true then Resp.success r else Resp.recordNotFound) := by
      rcases htr : truthy r with _ | _
      · simp [handle, handlerBody, findAllMetal, Eff.bind, liftE, Eff.pure,
          callExt, callValidateFilter, hq, hi, ho2, hval, hok, hico, hbt, hext,
          htr, paginateHasData]
      · have h1 := jsGet_of_truthy r "data" htr
        rcases htd : truthy (getF r "data") with _ | _
        · simp [handle, handlerBody, findAllMetal, Eff.bind, liftE, Eff.pure,
            callExt, callValidateFilter, hq, hi, ho2, hval, hok, hico, hbt,
            hext, htr, htd, h1, paginateHasData]
        · have h2 := jsGet_of_truthy (getF r "data") "length" htd
          rcases htl : truthy (getF (getF r "data") "length") with _ | _ <;>
            simp [handle, handlerBody, findAllMetal, Eff.bind, liftE, Eff.pure,
              callExt, callValidateFilter, hq, hi, ho2, hval, hok, hico, hbt,
              hext, htr, htd, h1, h2, htl, paginateHasData]
    constructor <;> intro hpd <;> simp [hrun, hpd]

theorem C5_not_found_lookup_distinct_witness :
    handle .getMetal oMissing (.vobj []) pIdA uSeven =
      (.recordNotFound, [.dbFindOne (.vobj [(.named "_id", .vstr "a")]) (.vobj [])]) ∧
    (handle .findAllMetal oMissing (.vobj []) pIdA uSeven).1 = .recordNotFound :=
  ⟨(C5_not_found_lookup_distinct.1 oMissing (.vobj []) pIdA uSeven (.vstr "a") .vnull
      rfl rfl rfl).1 rfl,
   (C5_not_found_lookup_distinct.2 oMissing [] pIdA uSeven ⟨true, ""⟩ .vnull
      rfl rfl rfl rfl).1 rfl⟩

/-- C7: in `findAllMetal` with a valid filter, a truthy `isCountOnly` takes
the count path — the only persistence call is `dbService.count` on the
request's query and the response is `success { totalRecords }` — while a
falsy `isCountOnly` never calls `count`: the only persistence call is
`dbService.paginate`. -/
theorem C7_isCountOnly_paths :
    (∀ (o : Oracle) (bf : List (Key × JsVal)) (p u : JsVal) (vr : VRes),
      o.validateFilter true (.vobj bf) = .ok vr →
      vr.isValid = true →
      truthy (getF (.vobj bf) "isCountOnly") = true →
      persistCalls (handle .findAllMetal o (.vobj bf) p u).2 =
        [.dbCount (jsQueryObj (getF (.vobj bf) "query"))] ∧
      (∀ n, o.ext (.dbCount (jsQueryObj (getF (.vobj bf) "query"))) = .ok n →
        (handle .findAllMetal o (.vobj bf) p u).1 =
          .success (.vobj [(.named "totalRecords", n)])))
    ∧ (∀ (o : Oracle) (bf : List (Key × JsVal)) (p u : JsVal) (vr : VRes),
      o.validateFilter true (.vobj bf) = .ok vr →
      vr.isValid = true →
      truthy (getF (.vobj bf) "isCountOnly") = false →
      persistCalls (handle .findAllMetal o (.vobj bf) p u).2 =
        [.dbPaginate (jsQueryObj (getF (.vobj bf) "query"))
          (jsQueryObj (getF (.vobj bf) "options"))]) := by
  have hbt : ∀ bf : List (Key × JsVal), truthy (JsVal.vobj bf) = true :=
    fun _ => rfl
  have hg : ∀ (bf : List (Key × JsVal)) (k : String),
      jsGet (JsVal.vobj bf) k = .ok (getF (JsVal.vobj bf) k) := fun _ _ => rfl
  constructor
  · intro o bf p u vr hval hok hico
    constructor
    · rcases hc : o.ext (.dbCount (jsQueryObj (getF (.vobj bf) "query"))) with m | n <;>
        simp [handle, handlerBody, findAllMetal, Eff.bind, liftE, Eff.pure,
          callExt, callValidateFilter, persistCalls, isPersist, List.filter,
          hg, hval, hok, hico, hbt, hc]
    · intro n hn
      simp [handle, handlerBody, findAllMetal, Eff.bind, liftE, Eff.pure,
        callExt, callValidateFilter, hg, hval, hok, hico, hbt, hn]
  · intro o bf p u vr hval hok hico
    rcases hp : o.ext (.dbPaginate (jsQueryObj (getF (.vobj bf) "query"))
        (jsQueryObj (getF (.vobj bf) "options"))) with m | r
    · simp [handle, handlerBody, findAllMetal, Eff.bind, liftE, Eff.pure,
        callExt, callValidateFilter, persistCalls, isPersist, List.filter,
        hg, hval, hok, hico, hbt, hp]
    · rcases htr : truthy r with _ | _
      · simp [handle, handlerBody, findAllMetal, Eff.bind, liftE, Eff.pure,
          callExt, callValidateFilter, persistCalls, isPersist, List.filter,
          hg, hval, hok, hico, hbt, hp, htr]
      · have h1 := jsGet_of_truthy r "data" htr
        rcases htd : truthy (getF r "data") with _ | _
        · simp [handle, handlerBody, findAllMetal, Eff.bind, liftE, Eff.pure,
            callExt, callValidateFilter, persistCalls, isPersist, List.filter,
            hg, hval, hok, hico, hbt, hp, htr, htd, h1]
        · have h2 := jsGet_of_truthy (getF r "data") "length" htd
          rcases htl : truthy (getF (getF r "data") "length") with _ | _ <;>
            simp [handle, handlerBody, findAllMetal, Eff.bind, liftE, Eff.pure,
              callExt, callValidateFilter, persistCalls, isPersist, List.filter,
              hg, hval, hok, hico, hbt, hp, htr, htd, htl, h1, h2]

theorem C7_isCountOnly_paths_witness :
    persistCalls (handle .findAllMetal oFound
        (.vobj [(.named "isCountOnly", .vbool true)]) pIdA uSeven).2 =
      [.dbCount (.vobj [])] ∧
    (handle .findAllMetal oFound
        (.vobj [(.named "isCountOnly", .vbool true)]) pIdA uSeven).1 =
      .success (.vobj [(.named "totalRecords", docGold)]) ∧
    persistCalls (handle .findAllMetal oFound (.vobj []) pIdA uSeven).2 =
      [.dbPaginate (.vobj []) (.vobj [])] :=
  ⟨(C7_isCountOnly_paths.1 oFound [(.named "isCountOnly", .vbool true)] pIdA uSeven
      ⟨true, ""⟩ rfl rfl rfl).1,
   (C7_isCountOnly_paths.1 oFound [(.named "isCountOnly", .vbool true)] pIdA uSeven
      ⟨true, ""⟩ rfl rfl rfl).2 docGold rfl,
   C7_isCountOnly_paths.2 oFound [] pIdA uSeven ⟨true, ""⟩ rfl rfl rfl⟩

/-- C6: in `deleteMetal` and `deleteManyMetal`, a truthy `req.body.isWarning`
(with the required id/ids present) makes `deleteDependentService.countMetal`
the one and only persistence call — `deleteDependentService.deleteMetal` is
never invoked, so nothing is deleted — and a truthy count is returned in a
`success` response. -/
theorem C6_isWarning_counts_only :
    (∀ (o : Oracle) (bf : List (Key × JsVal)) (p u pid : JsVal),
      jsGet p "id" = .ok pid →
      truthy pid = true →
      truthy (getF (.vobj bf) "isWarning") = true →
      (handle .deleteMetal o (.vobj bf) p u).2 =
        [.ddsCountMetal (.vobj [(.named "_id", pid)])] ∧
      (∀ v, o.ext (.ddsCountMetal (.vobj [(.named "_id", pid)])) = .ok v →
        truthy v = true →
        (handle .deleteMetal o (.vobj bf) p u).1 = .success v))
    ∧ (∀ (o : Oracle) (bf : List (Key × JsVal)) (p u : JsVal) (es : List JsVal),
      getF (.vobj bf) "ids" = .varr es →
      0 < es.length →
      truthy (getF (.vobj bf) "isWarning") = true →
      (handle .deleteManyMetal o (.vobj bf) p u).2 =
        [.ddsCountMetal (.vobj [(.named "_id", .vobj [(.named "$in", .varr es)])])] ∧
      (∀ v, o.ext
          (.ddsCountMetal (.vobj [(.named "_id", .vobj [(.named "$in", .varr es)])])) = .ok v →
        truthy v = true →
        (handle .deleteManyMetal o (.vobj bf) p u).1 = .success v)) := by
  have hg : ∀ (bf : List (Key × JsVal)) (k : String),
      jsGet (JsVal.vobj bf) k = .ok (getF (JsVal.vobj bf) k) := fun _ _ => rfl
  constructor
  · intro o bf p u pid hpid htp hiw
    constructor
    · rcases hc : o.ext (.ddsCountMetal (.vobj [(.named "_id", pid)])) with m | v
      · simp [handle, handlerBody, deleteMetal, Eff.bind, liftE, Eff.pure,
          callExt, hg, hpid, htp, hiw, hc]
      · rcases htv : truthy v with _ | _ <;>
          simp [handle, handlerBody, deleteMetal, Eff.bind, liftE, Eff.pure,
            callExt, hg, hpid, htp, hiw, hc, htv]
    · intro v hv htv
      simp [handle, handlerBody, deleteMetal, Eff.bind, liftE, Eff.pure,
        callExt, hg, hpid, htp, hiw, hv, htv]
  · intro o bf p u es hids hlen hiw
    have hlen2 : decide (es.length < 1) = false := by
      simp only [decide_eq_false_iff_not]
      omega
    have htids : truthy (JsVal.varr es) = true := rfl
    constructor
    · rcases hc : o.ext
          (.ddsCountMetal (.vobj [(.named "_id", .vobj [(.named "$in", .varr es)])]))
        with m | v
      · simp [handle, handlerBody, deleteManyMetal, Eff.bind, liftE, Eff.pure,
          callExt, hg, hids, hlen2, hiw, hc, htids]
      · rcases htv : truthy v with _ | _ <;>
          simp [handle, handlerBody, deleteManyMetal, Eff.bind, liftE, Eff.pure,
            callExt, hg, hids, hlen2, hiw, hc, htv, htids]
    · intro v hv htv
      simp [handle, handlerBody, deleteManyMetal, Eff.bind, liftE, Eff.pure,
        callExt, hg, hids, hlen2, hiw, hv, htv, htids]

theorem C6_isWarning_counts_only_witness :
    (handle .deleteMetal oFound (.vobj [(.named "isWarning", .vbool true)]) pIdA uSeven).2 =
      [.ddsCountMetal (.vobj [(.named "_id", .vstr "a")])] ∧
    (handle .deleteMetal oFound (.vobj [(.named "isWarning", .vbool true)]) pIdA uSeven).1 =
      .success docGold ∧
    (handle .deleteManyMetal oFound
        (.vobj [(.named "ids", .varr [.vstr "a"]), (.named "isWarning", .vbool true)])
        pIdA uSeven).2 =
      [.ddsCountMetal (.vobj [(.named "_id", .vobj [(.named "$in", .varr [.vstr "a"])])])] :=
  ⟨(C6_isWarning_counts_only.1 oFound [(.named "isWarning", .vbool true)] pIdA uSeven
      (.vstr "a") rfl rfl rfl).1,
   (C6_isWarning_counts_only.1 oFound [(.named "isWarning", .vbool true)] pIdA uSeven
      (.vstr "a") rfl rfl rfl).2 docGold rfl rfl,
   (C6_isWarning_counts_only.2 oFound
      [(.named "ids", .varr [.vstr "a"]), (.named "isWarning", .vbool true)] pIdA uSeven
      [.vstr "a"] rfl (by decide) rfl).1⟩

/-- The call log of a `bulkInsertMetal` run: either empty, or exactly one
`dbService.create` call on the `addedBy`-stamped copy of `req.body.data`. -/
theorem bulkInsert_log (o : Oracle) (b p u : JsVal) :
    (handle .bulkInsertMetal o b p u).2 = [] ∨
    ∃ es ys, getF b "data" = .varr es ∧ addAddedBy u es = .ok ys ∧
      (handle .bulkInsertMetal o b p u).2 = [.dbCreate (.varr ys)] := by
  rcases htb : truthy b with _ | _
  · cases b with
    | vundefined => exact Or.inl rfl
    | vnull => exact Or.inl rfl
    | vbool bb =>
      have hbb : bb = false := by simpa [truthy] using htb
      subst hbb; exact Or.inl rfl
    | vnum n =>
      have hn : n = 0 := by simpa [truthy] using htb
      subst hn; exact Or.inl rfl
    | vstr s =>
      have hs : s = "" := by simpa [truthy] using htb
      subst hs; exact Or.inl rfl
    | vobj fs => cases htb
    | varr es => cases htb
  · have hgd : jsGet b "data" = .ok (getF b "data") := jsGet_of_truthy b "data" htb
    rcases hdd : getF b "data" with _ | _ | bb | n | s | fs | es
    case vundefined | vnull | vbool | vnum | vstr | vobj =>
      exact Or.inl (by
        simp [handle, handlerBody, bulkInsertMetal, Eff.bind, liftE, Eff.pure,
          callExt, htb, hgd, hdd])
    case varr =>
      rcases hl : decide (es.length < 1) with _ | _
      · rcases ha : addAddedBy u es with m | ys
        · exact Or.inl (by
            simp [handle, handlerBody, bulkInsertMetal, Eff.bind, liftE,
              Eff.pure, callExt, spreadArr, htb, hgd, hdd, hl, ha])
        · refine Or.inr ⟨es, ys, rfl, ha, ?_⟩
          rcases he : o.ext (.dbCreate (.varr ys)) with m | cr
          · simp [handle, handlerBody, bulkInsertMetal, Eff.bind, liftE,
              Eff.pure, callExt, spreadArr, htb, hgd, hdd, hl, ha, he]
          · rcases htc : truthy cr with _ | _
            · simp [handle, handlerBody, bulkInsertMetal, Eff.bind, liftE,
                Eff.pure, callExt, spreadArr, htb, hgd, hdd, hl, ha, he, htc]
            · have hlc := jsGet_of_truthy cr "length" htc
              simp [handle, handlerBody, bulkInsertMetal, Eff.bind, liftE,
                Eff.pure, callExt, spreadArr, htb, hgd, hdd, hl, ha, he, htc, hlc]
      · exact Or.inl (by
          simp [handle, handlerBody, bulkInsertMetal, Eff.bind, liftE,
            Eff.pure, callExt, htb, hgd, hdd, hl])

/-- C1 (amended): the five handlers that validate their payload — `addMetal`,
`updateMetal`, `partialUpdateMetal`, `findAllMetal`, `getMetalCount` — return
`validationError` and make no persistence call whenever the validator rejects
the payload they build; `bulkInsertMetal`, by contrast, never calls the schema
validator at all, so the pre-persistence rejection does not extend to it. -/
theorem C1_schema_validation_rejects_before_persistence :
    (∀ (o : Oracle) (b p u : JsVal) (vr : VRes),
      o.validateParams .schemaKeys
        (.vobj (if truthy b then spreadFields b else [])) = .ok vr →
      vr.isValid = false →
      (handle .addMetal o b p u).1 =
        .validationError ("Invalid values in parameters, " ++ vr.message) ∧
      persistCalls (handle .addMetal o b p u).2 = [])
    ∧ (∀ (o : Oracle) (b p u uid : JsVal) (vr : VRes),
      jsGet u "id" = .ok uid →
      o.validateParams .updateSchemaKeys
        (.vobj (oset (spreadFields b) (.named "updatedBy") uid)) = .ok vr →
      vr.isValid = false →
      (handle .updateMetal o b p u).1 =
        .validationError ("Invalid values in parameters, " ++ vr.message) ∧
      persistCalls (handle .updateMetal o b p u).2 = [])
    ∧ (∀ (o : Oracle) (b p u pid b2 uid : JsVal) (vr : VRes),
      jsGet p "id" = .ok pid →
      jsDelete b "addedBy" = .ok b2 →
      jsGet u "id" = .ok uid →
      o.validateParams .updateSchemaKeys
        (.vobj (oset (spreadFields b2) (.named "updatedBy") uid)) = .ok vr →
      vr.isValid = false →
      (handle .partialUpdateMetal o b p u).1 =
        .validationError ("Invalid values in parameters, " ++ vr.message) ∧
      persistCalls (handle .partialUpdateMetal o b p u).2 = [])
    ∧ (∀ (o : Oracle) (b p u : JsVal) (vr : VRes),
      o.validateFilter true b = .ok vr →
      vr.isValid = false →
      (handle .findAllMetal o b p u).1 = .validationError vr.message ∧
      persistCalls (handle .findAllMetal o b p u).2 = [])
    ∧ (∀ (o : Oracle) (b p u : JsVal) (vr : VRes),
      o.validateFilter false b = .ok vr →
      vr.isValid = false →
      (handle .getMetalCount o b p u).1 = .validationError vr.message ∧
      persistCalls (handle .getMetalCount o b p u).2 = [])
    ∧ (∀ (o : Oracle) (b p u : JsVal) (sid : SchemaId) (d : JsVal),
      ExtCall.valParams sid d ∉ (handle .bulkInsertMetal o b p u).2) := by
  refine ⟨?_, ?_, ?_, ?_, ?_, ?_⟩
  · intro o b p u vr hv hnv
    constructor <;>
      simp [handle, handlerBody, addMetal, Eff.bind, liftE, Eff.pure,
        callValidateParams, callExt, persistCalls, isPersist, List.filter,
        hv, hnv]
  · intro o b p u uid vr hu hv hnv
    constructor <;>
      simp [handle, handlerBody, updateMetal, Eff.bind, liftE, Eff.pure,
        callValidateParams, callExt, persistCalls, isPersist, List.filter,
        hu, hv, hnv]
  · intro o b p u pid b2 uid vr hp hdel hu hv hnv
    constructor <;>
      simp [handle, handlerBody, partialUpdateMetal, Eff.bind, liftE, Eff.pure,
        callValidateParams, callExt, persistCalls, isPersist, List.filter,
        hp, hdel, hu, hv, hnv]
  · intro o b p u vr hv hnv
    constructor <;>
      simp [handle, handlerBody, findAllMetal, Eff.bind, liftE, Eff.pure,
        callValidateFilter, callExt, persistCalls, isPersist, List.filter,
        hv, hnv]
  · intro o b p u vr hv hnv
    constructor <;>
      simp [handle, handlerBody, getMetalCount, Eff.bind, liftE, Eff.pure,
        callValidateFilter, callExt, persistCalls, isPersist, List.filter,
        hv, hnv]
  · intro o b p u sid d hmem
    rcases bulkInsert_log o b p u with h | ⟨es, ys, h1, h2, h3⟩
    · rw [h] at hmem
      cases hmem
    · rw [h3] at hmem
      simp at hmem

/-- C1 counterexample: with a validator that rejects every payload,
`bulkInsertMetal` still hands the data to `dbService.create` and responds
`success` — no `validationError`, no pre-persistence rejection. -/
theorem C1_bulkInsert_skips_validation_cex :
    oRejectAll.validateParams .schemaKeys (.vobj []) = .ok ⟨false, "bad"⟩ ∧
    handle .bulkInsertMetal oRejectAll bBulk pIdA uSeven =
      (.success (.vobj [(.named "count", .vnum 1)]),
        [.dbCreate (.varr [.vobj [(.named "addedBy", .vnum 7)]])]) :=
  ⟨rfl, rfl⟩

theorem C1_schema_validation_rejects_before_persistence_witness :
    ((handle .addMetal oRejectAll (.vobj []) pIdA uSeven).1 =
      .validationError "Invalid values in parameters, bad" ∧
     persistCalls (handle .addMetal oRejectAll (.vobj []) pIdA uSeven).2 = []) ∧
    ((handle .updateMetal oRejectAll (.vobj []) pIdA uSeven).1 =
      .validationError "Invalid values in parameters, bad" ∧
     persistCalls (handle .updateMetal oRejectAll (.vobj []) pIdA uSeven).2 = []) ∧
    ((handle .findAllMetal oRejectAll (.vobj []) pIdA uSeven).1 =
      .validationError "bad" ∧
     persistCalls (handle .findAllMetal oRejectAll (.vobj []) pIdA uSeven).2 = []) ∧
    ExtCall.valParams .schemaKeys .vnull ∉
      (handle .bulkInsertMetal oRejectAll bBulk pIdA uSeven).2 :=
  ⟨C1_schema_validation_rejects_before_persistence.1 oRejectAll (.vobj []) pIdA uSeven
      ⟨false, "bad"⟩ rfl rfl,
   C1_schema_validation_rejects_before_persistence.2.1 oRejectAll (.vobj []) pIdA uSeven
      (.vnum 7) ⟨false, "bad"⟩ rfl rfl rfl,
   C1_schema_validation_rejects_before_persistence.2.2.2.1 oRejectAll (.vobj []) pIdA
      uSeven ⟨false, "bad"⟩ rfl rfl,
   C1_schema_validation_rejects_before_persistence.2.2.2.2.2 oRejectAll bBulk pIdA
      uSeven .schemaKeys .vnull⟩

/-- C3 (amended): only `getMetal` validates the ObjectId in `req.params.id`,
rejecting an invalid id with `validationError` and no persistence call.
`softDeleteMetal` and `deleteMetal` reject only an absent (falsy) id, with
`badRequest`; `updateMetal` performs no id check at all and reaches
`dbService.updateOne` whatever the id is; `partialUpdateMetal` computes a
`badRequest` for a missing id but, lacking a `return`, still reaches
`dbService.updateOne`. -/
theorem C3_only_getMetal_checks_objectId :
    (∀ (o : Oracle) (b p u pid : JsVal),
      jsGet p "id" = .ok pid →
      o.objectIdValid pid = false →
      handle .getMetal o b p u = (.validationError "invalid objectId.", []))
    ∧ (∀ (o : Oracle) (b p u pid : JsVal),
      jsGet p "id" = .ok pid →
      truthy pid = false →
      handle .softDeleteMetal o b p u =
        (.badRequest (some "Insufficient request parameters! id is required."), []))
    ∧ (∀ (o : Oracle) (b p u pid : JsVal),
      jsGet p "id" = .ok pid →
      truthy pid = false →
      handle .deleteMetal o b p u =
        (.badRequest (some "Insufficient request parameters! id is required."), []))
    ∧ (∀ (o : Oracle) (b p u pid uid : JsVal) (vr : VRes),
      jsGet u "id" = .ok uid →
      o.validateParams .updateSchemaKeys
        (.vobj (oset (spreadFields b) (.named "updatedBy") uid)) = .ok vr →
      vr.isValid = true →
      jsGet p "id" = .ok pid →
      persistCalls (handle .updateMetal o b p u).2 =
        [.dbUpdateOne (.vobj [(.named "_id", pid)])
          (.vobj (oset (spreadFields b) (.named "updatedBy") uid))])
    ∧ (∀ (o : Oracle) (b p u pid b2 uid : JsVal) (vr : VRes),
      jsGet p "id" = .ok pid →
      truthy pid = false →
      jsDelete b "addedBy" = .ok b2 →
      jsGet u "id" = .ok uid →
      o.validateParams .updateSchemaKeys
        (.vobj (oset (spreadFields b2) (.named "updatedBy") uid)) = .ok vr →
      vr.isValid = true →
      persistCalls (handle .partialUpdateMetal o b p u).2 =
        [.dbUpdateOne (.vobj [(.named "_id", pid)])
          (.vobj (oset (spreadFields b2) (.named "updatedBy") uid))]) := by
  refine ⟨?_, ?_, ?_, ?_, ?_⟩
  · intro o b p u pid hp hval
    simp [handle, handlerBody, getMetal, Eff.bind, liftE, Eff.pure, callExt,
      hp, hval]
  · intro o b p u pid hp htp
    simp [handle, handlerBody, softDeleteMetal, Eff.bind, liftE, Eff.pure,
      callExt, hp, htp]
  · intro o b p u pid hp htp
    simp [handle, handlerBody, deleteMetal, Eff.bind, liftE, Eff.pure,
      callExt, hp, htp]
  · intro o b p u pid uid vr hu hv hok hp
    rcases he : o.ext (.dbUpdateOne (.vobj [(.named "_id", pid)])
        (.vobj (oset (spreadFields b) (.named "updatedBy") uid))) with m | w
    · simp [handle, handlerBody, updateMetal, Eff.bind, liftE, Eff.pure,
        callExt, callValidateParams, persistCalls, isPersist, List.filter,
        hu, hv, hok, hp, he]
    · rcases htw : truthy w with _ | _ <;>
        simp [handle, handlerBody, updateMetal, Eff.bind, liftE, Eff.pure,
          callExt, callValidateParams, persistCalls, isPersist, List.filter,
          hu, hv, hok, hp, he, htw]
  · intro o b p u pid b2 uid vr hp htp hdel hu hv hok
    rcases he : o.ext (.dbUpdateOne (.vobj [(.named "_id", pid)])
        (.vobj (oset (spreadFields b2) (.named "updatedBy") uid))) with m | w
    · simp [handle, handlerBody, partialUpdateMetal, Eff.bind, liftE, Eff.pure,
        callExt, callValidateParams, persistCalls, isPersist, List.filter,
        hp, htp, hdel, hu, hv, hok, he]
    · rcases htw : truthy w with _ | _ <;>
        simp [handle, handlerBody, partialUpdateMetal, Eff.bind, liftE,
          Eff.pure, callExt, callValidateParams, persistCalls, isPersist,
          List.filter, hp, htp, hdel, hu, hv, hok, he, htw]

/-- C3 counterexample: `"xyz"` is not a valid ObjectId for these
collaborators, yet `updateMetal` neither rejects it nor skips persistence — it
calls `dbService.updateOne` and returns `success`. -/
theorem C3_updateMetal_invalid_objectId_cex :
    oNoId.objectIdValid (.vstr "xyz") = false ∧
    handle .updateMetal oNoId (.vobj []) (.vobj [(.named "id", .vstr "xyz")]) uSeven =
      (.success docGold,
        [.valParams .updateSchemaKeys (.vobj [(.named "updatedBy", .vnum 7)]),
         .dbUpdateOne (.vobj [(.named "_id", .vstr "xyz")])
           (.vobj [(.named "updatedBy", .vnum 7)])]) :=
  ⟨rfl, rfl⟩

theorem C3_only_getMetal_checks_objectId_witness :
    handle .getMetal oNoId (.vobj []) pIdA uSeven =
      (.validationError "invalid objectId.", []) ∧
    handle .softDeleteMetal oFound (.vobj []) (.vobj []) uSeven =
      (.badRequest (some "Insufficient request parameters! id is required."), []) ∧
    persistCalls (handle .updateMetal oNoId (.vobj [])
        (.vobj [(.named "id", .vstr "xyz")]) uSeven).2 =
      [.dbUpdateOne (.vobj [(.named "_id", .vstr "xyz")])
        (.vobj [(.named "updatedBy", .vnum 7)])] :=
  ⟨C3_only_getMetal_checks_objectId.1 oNoId (.vobj []) pIdA uSeven (.vstr "a") rfl rfl,
   C3_only_getMetal_checks_objectId.2.1 oFound (.vobj []) (.vobj []) uSeven .vundefined
     rfl rfl,
   C3_only_getMetal_checks_objectId.2.2.2.1 oNoId (.vobj [])
     (.vobj [(.named "id", .vstr "xyz")]) uSeven (.vstr "xyz") (.vnum 7)
     ⟨true, ""⟩ rfl rfl rfl rfl⟩

/-- C4 (amended): when `req.body` is present, a missing, non-array or empty
bulk array makes `bulkInsertMetal`, `deleteManyMetal` and `softDeleteManyMetal`
return `badRequest` with no persistence call; but when `req.body` itself is
absent the guard never runs — each handler throws reading the field and
responds `internalServerError` (still with no persistence call), not
`badRequest`. -/
theorem C4_bulk_array_guard :
    (∀ (o : Oracle) (b p u : JsVal),
      truthy b = true →
      nonEmptyArray (getF b "data") = false →
      handle .bulkInsertMetal o b p u = (.badRequest none, []))
    ∧ (∀ (o : Oracle) (bf : List (Key × JsVal)) (p u : JsVal),
      nonEmptyArray (getF (.vobj bf) "ids") = false →
      handle .deleteManyMetal o (.vobj bf) p u = (.badRequest none, []))
    ∧ (∀ (o : Oracle) (bf : List (Key × JsVal)) (p u : JsVal),
      nonEmptyArray (getF (.vobj bf) "ids") = false →
      handle .softDeleteManyMetal o (.vobj bf) p u = (.badRequest none, []))
    ∧ (∀ (o : Oracle) (p u : JsVal),
      handle .bulkInsertMetal o .vundefined p u =
        (.internalServerError "Cannot read properties of undefined (reading data)", []))
    ∧ (∀ (o : Oracle) (p u : JsVal),
      handle .deleteManyMetal o .vundefined p u =
        (.internalServerError "Cannot read properties of undefined (reading ids)", []))
    ∧ (∀ (o : Oracle) (p u : JsVal),
      handle .softDeleteManyMetal o .vundefined p u =
        (.internalServerError "Cannot read properties of undefined (reading ids)", [])) := by
  refine ⟨?_, ?_, ?_, fun o p u => rfl, fun o p u => rfl, fun o p u => rfl⟩
  · intro o b p u htb h
    have hgd : jsGet b "data" = .ok (getF b "data") := jsGet_of_truthy b "data" htb
    rcases hdd : getF b "data" with _ | _ | bb | n | s | fs | es <;>
      rw [hdd] at h
    case varr =>
      have hlen : es.length = 0 := by simpa [nonEmptyArray] using h
      simp [handle, handlerBody, bulkInsertMetal, Eff.bind, liftE, Eff.pure,
        htb, hgd, hdd, hlen]
    all_goals
      simp [handle, handlerBody, bulkInsertMetal, Eff.bind, liftE, Eff.pure,
        htb, hgd, hdd]
  · intro o bf p u h
    have hg2 : jsGet (JsVal.vobj bf) "ids" = .ok (getF (JsVal.vobj bf) "ids") := rfl
    rcases hids : getF (JsVal.vobj bf) "ids" with _ | _ | bb | n | s | fs | es <;>
      rw [hids] at h
    case vbool =>
      cases bb <;>
        simp [handle, handlerBody, deleteManyMetal, Eff.bind, liftE, Eff.pure,
          hg2, hids]
    case vnum =>
      rcases htn : truthy (JsVal.vnum n) with _ | _ <;>
        simp [handle, handlerBody, deleteManyMetal, Eff.bind, liftE, Eff.pure,
          hg2, hids, htn]
    case vstr =>
      rcases hts : truthy (JsVal.vstr s) with _ | _ <;>
        simp [handle, handlerBody, deleteManyMetal, Eff.bind, liftE, Eff.pure,
          hg2, hids, hts]
    case varr =>
      have hlen : es.length = 0 := by simpa [nonEmptyArray] using h
      simp [handle, handlerBody, deleteManyMetal, Eff.bind, liftE, Eff.pure,
        hg2, hids, hlen, truthy]
    all_goals
      simp [handle, handlerBody, deleteManyMetal, Eff.bind, liftE, Eff.pure,
        hg2, hids]
  · intro o bf p u h
    have hg2 : jsGet (JsVal.vobj bf) "ids" = .ok (getF (JsVal.vobj bf) "ids") := rfl
    rcases hids : getF (JsVal.vobj bf) "ids" with _ | _ | bb | n | s | fs | es <;>
      rw [hids] at h
    case vbool =>
      cases bb <;>
        simp [handle, handlerBody, softDeleteManyMetal, Eff.bind, liftE,
          Eff.pure, hg2, hids]
    case vnum =>
      rcases htn : truthy (JsVal.vnum n) with _ | _ <;>
        simp [handle, handlerBody, softDeleteManyMetal, Eff.bind, liftE,
          Eff.pure, hg2, hids, htn]
    case vstr =>
      rcases hts : truthy (JsVal.vstr s) with _ | _ <;>
        simp [handle, handlerBody, softDeleteManyMetal, Eff.bind, liftE,
          Eff.pure, hg2, hids, hts]
    case varr =>
      have hlen : es.length = 0 := by simpa [nonEmptyArray] using h
      simp [handle, handlerBody, softDeleteManyMetal, Eff.bind, liftE,
        Eff.pure, hg2, hids, hlen, truthy]
    all_goals
      simp [handle, handlerBody, softDeleteManyMetal, Eff.bind, liftE,
        Eff.pure, hg2, hids]

/-- C4 counterexample: with `req.body` absent, `deleteManyMetal` responds
`internalServerError` — not the `badRequest` the claim demands. -/
theorem C4_absent_body_not_badRequest_cex :
    (handle .deleteManyMetal oFound .vundefined pIdA uSeven).1 =
      .internalServerError "Cannot read properties of undefined (reading ids)" ∧
    ∀ m, Resp.internalServerError "Cannot read properties of undefined (reading ids)" ≠
      .badRequest m :=
  ⟨rfl, fun m h => Resp.noConfusion h⟩

theorem C4_bulk_array_guard_witness :
    handle .bulkInsertMetal oFound (.vobj []) pIdA uSeven = (.badRequest none, []) ∧
    handle .deleteManyMetal oFound (.vobj []) pIdA uSeven = (.badRequest none, []) ∧
    handle .softDeleteManyMetal oFound (.vobj []) pIdA uSeven = (.badRequest none, []) ∧
    handle .deleteManyMetal oFound .vundefined pIdA uSeven =
      (.internalServerError "Cannot read properties of undefined (reading ids)", []) :=
  ⟨C4_bulk_array_guard.1 oFound (.vobj []) pIdA uSeven rfl rfl,
   C4_bulk_array_guard.2.1 oFound [] pIdA uSeven rfl,
   C4_bulk_array_guard.2.2.1 oFound [] pIdA uSeven rfl,
   C4_bulk_array_guard.2.2.2.2.1 oFound pIdA uSeven⟩

theorem key_addedBy_ne_updatedBy : (Key.named "addedBy") ≠ (Key.named "updatedBy") := by
  decide

/-- Every element the `bulkInsertMetal` loop produces carries
`addedBy = req.user.id`. -/
theorem addAddedBy_mem (u : JsVal) (es ys : List JsVal) (h : addAddedBy u es = .ok ys) :
    ∀ y ∈ ys, ∃ uid, jsGet u "id" = .ok uid ∧ getF y "addedBy" = uid := by
  induction es generalizing ys with
  | nil =>
    simp [addAddedBy] at h
    subst h
    simp
  | cons e tl ih =>
    simp only [addAddedBy] at h
    rcases hu : jsGet u "id" with m | uid <;> rw [hu] at h
    · cases h
    · rcases ha : addAddedBy u tl with m2 | ys2 <;> rw [ha] at h
      · cases h
      · simp only [Except.ok.injEq] at h
        subst h
        intro y hy
        rcases List.mem_cons.mp hy with rfl | hy2
        · exact ⟨uid, rfl, by simp [getF, olook_oset_self]⟩
        · obtain ⟨uid2, h1, h2⟩ := ih ys2 ha y hy2
          rw [hu] at h1
          exact ⟨uid2, h1, h2⟩

/-- C9: every document handed to `dbService.create` — the single document of
`addMetal` and every element of the bulk array of `bulkInsertMetal` — carries
`addedBy = req.user.id`, whatever `addedBy` value the client supplied. -/
theorem C9_addedBy_stamped :
    (∀ (o : Oracle) (b p u d : JsVal),
      ExtCall.dbCreate d ∈ (handle .addMetal o b p u).2 →
      ∃ uid, jsGet u "id" = .ok uid ∧ getF d "addedBy" = uid)
    ∧ (∀ (o : Oracle) (b p u d : JsVal),
      ExtCall.dbCreate d ∈ (handle .bulkInsertMetal o b p u).2 →
      ∀ y ∈ docsOf d, ∃ uid, jsGet u "id" = .ok uid ∧ getF y "addedBy" = uid) := by
  have hsf : ∀ X : List (Key × JsVal), spreadFields (JsVal.vobj X) = X := fun _ => rfl
  constructor
  · intro o b p u d hmem
    rcases hv : o.validateParams .schemaKeys
        (.vobj (if truthy b then spreadFields b else [])) with m | vr
    · simp [handle, handlerBody, addMetal, Eff.bind, liftE, Eff.pure, callExt,
        callValidateParams, hv] at hmem
    · rcases hiv : vr.isValid with _ | _
      · simp [handle, handlerBody, addMetal, Eff.bind, liftE, Eff.pure,
          callExt, callValidateParams, hv, hiv] at hmem
      · rcases hu : jsGet u "id" with m | uid
        · simp [handle, handlerBody, addMetal, Eff.bind, liftE, Eff.pure,
            callExt, callValidateParams, hv, hiv, hu] at hmem
        · have hlog : (handle .addMetal o b p u).2 =
              [.valParams .schemaKeys (.vobj (if truthy b then spreadFields b else [])),
               .dbCreate (.vobj (oset (if truthy b then spreadFields b else [])
                 (.named "addedBy") uid))] := by
            rcases he : o.ext (.dbCreate (.vobj (oset
                (if truthy b then spreadFields b else []) (.named "addedBy") uid)))
              with m | cr <;>
              simp [handle, handlerBody, addMetal, Eff.bind, liftE, Eff.pure,
                callExt, callValidateParams, hsf, hv, hiv, hu, he]
          rw [hlog] at hmem
          simp at hmem
          subst hmem
          exact ⟨uid, rfl, by simp [getF, olook_oset_self]⟩
  · intro o b p u d hmem
    rcases bulkInsert_log o b p u with h | ⟨es, ys, h1, h2, h3⟩
    · rw [h] at hmem
      cases hmem
    · rw [h3] at hmem
      simp only [List.mem_singleton] at hmem
      have hd := ExtCall.dbCreate.inj hmem
      subst hd
      intro y hy
      exact addAddedBy_mem u es ys h2 y (by simpa [docsOf] using hy)

theorem C9_addedBy_stamped_witness :
    ∃ uid, jsGet uSeven "id" = .ok uid ∧
      getF (.vobj [(.named "addedBy", .vnum 7)]) "addedBy" = uid :=
  C9_addedBy_stamped.1 oFound (.vobj []) pIdA uSeven
    (.vobj [(.named "addedBy", .vnum 7)]) (List.Mem.tail _ (List.Mem.head _))

/-- C10: the update document `partialUpdateMetal` passes to
`dbService.updateOne` never contains `addedBy` (the handler deletes it from
the body first) and always carries `updatedBy = req.user.id`; by contrast
`updateMetal` and `bulkUpdateMetal` pass the client-supplied `addedBy` through
unchanged. -/
theorem C10_partialUpdate_strips_addedBy :
    (∀ (o : Oracle) (b p u q d : JsVal),
      ExtCall.dbUpdateOne q d ∈ (handle .partialUpdateMetal o b p u).2 →
      ownField d "addedBy" = none ∧
      ∃ uid, jsGet u "id" = .ok uid ∧ getF d "updatedBy" = uid)
    ∧ (∀ (o : Oracle) (b p u q d : JsVal),
      ExtCall.dbUpdateOne q d ∈ (handle .updateMetal o b p u).2 →
      ownField d "addedBy" = olook (spreadFields b) (.named "addedBy"))
    ∧ (∀ (o : Oracle) (b p u f d : JsVal) (fs : List (Key × JsVal)),
      truthy b = true →
      getF b "data" = .vobj fs →
      ExtCall.dbUpdateMany f d ∈ (handle .bulkUpdateMetal o b p u).2 →
      ownField d "addedBy" = olook fs (.named "addedBy")) := by
  refine ⟨?_, ?_, ?_⟩
  · intro o b p u q d hmem
    rcases hp : jsGet p "id" with m | pid
    · simp [handle, handlerBody, partialUpdateMetal, Eff.bind, liftE, Eff.pure,
        callExt, callValidateParams, hp] at hmem
    · rcases hdel : jsDelete b "addedBy" with m | b2
      · simp [handle, handlerBody, partialUpdateMetal, Eff.bind, liftE,
          Eff.pure, callExt, callValidateParams, hp, hdel] at hmem
      · rcases hu : jsGet u "id" with m | uid
        · simp [handle, handlerBody, partialUpdateMetal, Eff.bind, liftE,
            Eff.pure, callExt, callValidateParams, hp, hdel, hu] at hmem
        · rcases hv : o.validateParams .updateSchemaKeys
              (.vobj (oset (spreadFields b2) (.named "updatedBy") uid)) with m | vr
          · simp [handle, handlerBody, partialUpdateMetal, Eff.bind, liftE,
              Eff.pure, callExt, callValidateParams, hp, hdel, hu, hv] at hmem
          · rcases hiv : vr.isValid with _ | _
            · simp [handle, handlerBody, partialUpdateMetal, Eff.bind, liftE,
                Eff.pure, callExt, callValidateParams, hp, hdel, hu, hv,
                hiv] at hmem
            · have hlog : (handle .partialUpdateMetal o b p u).2 =
                  [.valParams .updateSchemaKeys
                    (.vobj (oset (spreadFields b2) (.named "updatedBy") uid)),
                   .dbUpdateOne (.vobj [(.named "_id", pid)])
                    (.vobj (oset (spreadFields b2) (.named "updatedBy") uid))] := by
                rcases he : o.ext (.dbUpdateOne (.vobj [(.named "_id", pid)])
                    (.vobj (oset (spreadFields b2) (.named "updatedBy") uid))) with m | w
                · simp [handle, handlerBody, partialUpdateMetal, Eff.bind,
                    liftE, Eff.pure, callExt, callValidateParams, hp, hdel, hu,
                    hv, hiv, he]
                · rcases htw : truthy w with _ | _ <;>
                    simp [handle, handlerBody, partialUpdateMetal, Eff.bind,
                      liftE, Eff.pure, callExt, callValidateParams, hp, hdel,
                      hu, hv, hiv, he, htw]
              rw [hlog] at hmem
              simp at hmem
              obtain ⟨hq, hd⟩ := hmem
              subst hq
              subst hd
              have hone := olook_oset_ne (spreadFields b2) (Key.named "updatedBy")
                (Key.named "addedBy") uid key_addedBy_ne_updatedBy
              have hnone := spreadFields_jsDelete_none b b2 hdel
              exact ⟨by simp [ownField, hone, hnone],
                uid, rfl, by simp [getF, olook_oset_self]⟩
  · intro o b p u q d hmem
    rcases hu : jsGet u "id" with m | uid
    · simp [handle, handlerBody, updateMetal, Eff.bind, liftE, Eff.pure,
        callExt, callValidateParams, hu] at hmem
    · rcases hv : o.validateParams .updateSchemaKeys
          (.vobj (oset (spreadFields b) (.named "updatedBy") uid)) with m | vr
      · simp [handle, handlerBody, updateMetal, Eff.bind, liftE, Eff.pure,
          callExt, callValidateParams, hu, hv] at hmem
      · rcases hiv : vr.isValid with _ | _
        · simp [handle, handlerBody, updateMetal, Eff.bind, liftE, Eff.pure,
            callExt, callValidateParams, hu, hv, hiv] at hmem
        · rcases hp : jsGet p "id" with m | pid
          · simp [handle, handlerBody, updateMetal, Eff.bind, liftE, Eff.pure,
              callExt, callValidateParams, hu, hv, hiv, hp] at hmem
          · have hlog : (handle .updateMetal o b p u).2 =
                [.valParams .updateSchemaKeys
                  (.vobj (oset (spreadFields b) (.named "updatedBy") uid)),
                 .dbUpdateOne (.vobj [(.named "_id", pid)])
                  (.vobj (oset (spreadFields b) (.named "updatedBy") uid))] := by
              rcases he : o.ext (.dbUpdateOne (.vobj [(.named "_id", pid)])
                  (.vobj (oset (spreadFields b) (.named "updatedBy") uid))) with m | w
              · simp [handle, handlerBody, updateMetal, Eff.bind, liftE,
                  Eff.pure, callExt, callValidateParams, hu, hv, hiv, hp, he]
              · rcases htw : truthy w with _ | _ <;>
                  simp [handle, handlerBody, updateMetal, Eff.bind, liftE,
                    Eff.pure, callExt, callValidateParams, hu, hv, hiv, hp,
                    he, htw]
            rw [hlog] at hmem
            simp at hmem
            obtain ⟨hq, hd⟩ := hmem
            subst hq
            subst hd
            have hone := olook_oset_ne (spreadFields b) (Key.named "updatedBy")
              (Key.named "addedBy") uid key_addedBy_ne_updatedBy
            simp [ownField, hone]
  · intro o b p u f d fs htb hdata hmem
    have hgf : jsGet b "filter" = .ok (getF b "filter") :=
      jsGet_of_truthy b "filter" htb
    have hgd : jsGet b "data" = .ok (getF b "data") :=
      jsGet_of_truthy b "data" htb
    rcases hu : jsGet u "id" with m | uid
    · simp [handle, handlerBody, bulkUpdateMetal, Eff.bind, liftE, Eff.pure,
        callExt, htb, hgf, hgd, hdata, hu] at hmem
    · have hlog : (handle .bulkUpdateMetal o b p u).2 =
          [.dbUpdateMany
            (if truthy (getF b "filter") then JsVal.vobj (spreadFields (getF b "filter"))
             else JsVal.vobj [])
            (.vobj (oset fs (.named "updatedBy") uid))] := by
        rcases he : o.ext (.dbUpdateMany
            (if truthy (getF b "filter") then JsVal.vobj (spreadFields (getF b "filter"))
             else JsVal.vobj [])
            (.vobj (oset fs (.named "updatedBy") uid))) with m | w
        · simp [handle, handlerBody, bulkUpdateMetal, Eff.bind, liftE,
            Eff.pure, callExt, htb, hgf, hgd, hdata, hu, he]
        · rcases htw : truthy w with _ | _ <;>
            simp [handle, handlerBody, bulkUpdateMetal, Eff.bind, liftE,
              Eff.pure, callExt, htb, hgf, hgd, hdata, hu, he, htw]
      rw [hlog] at hmem
      simp at hmem
      obtain ⟨hf, hd⟩ := hmem
      subst hd
      have hone := olook_oset_ne fs (Key.named "updatedBy")
        (Key.named "addedBy") uid key_addedBy_ne_updatedBy
      simp [ownField, hone]

theorem C10_partialUpdate_strips_addedBy_witness :
    ownField (.vobj [(.named "x", .vnum 1), (.named "updatedBy", .vnum 7)]) "addedBy" =
      none ∧
    ∃ uid, jsGet uSeven "id" = .ok uid ∧
      getF (.vobj [(.named "x", .vnum 1), (.named "updatedBy", .vnum 7)]) "updatedBy" =
        uid :=
  C10_partialUpdate_strips_addedBy.1 oFound
    (.vobj [(.named "addedBy", .vnum 9), (.named "x", .vnum 1)]) pIdA uSeven
    (.vobj [(.named "_id", .vstr "a")])
    (.vobj [(.named "x", .vnum 1), (.named "updatedBy", .vnum 7)])
    (List.Mem.tail _ (List.Mem.head _))

set_option maxHeartbeats 2000000 in
/-- No handler body returns an `internalServerError` through the non-throwing
path: that envelope is produced only by the shared `catch`. -/
theorem handlerBody_ok_not_ise (a : Route) (o : Oracle) (b p u : JsVal) (r : Resp)
    (log : List ExtCall) (h : handlerBody a o b p u [] = (.ok r, log)) :
    ∀ m, r ≠ .internalServerError m := by
  intro m hm
  subst hm
  cases a <;>
    simp only [handlerBody, addMetal, bulkInsertMetal, findAllMetal, getMetal,
      getMetalCount, updateMetal, bulkUpdateMetal, partialUpdateMetal,
      softDeleteMetal, deleteMetal, deleteManyMetal, softDeleteManyMetal,
      Eff.bind, Eff.pure, liftE, callExt, callValidateParams,
      callValidateFilter] at h <;>
    (repeat' (first
      | (split at h)
      | (simp only [Eff.bind, Eff.pure, liftE, callExt, callValidateParams,
          callValidateFilter] at h))) <;>
    simp_all

/-- C2: for every handler, a thrown error — from validation, the persistence
layer, or reading a missing request field — is caught and answered with
`internalServerError` carrying exactly that error's message; and
`internalServerError` is produced only that way, so no other response
category ever stands in for a thrown error and no thrown error escapes. -/
theorem C2_thrown_errors_become_internalServerError :
    (∀ (a : Route) (o : Oracle) (b p u : JsVal) (m : String) (log : List ExtCall),
      handlerBody a o b p u [] = (.error m, log) →
      handle a o b p u = (.internalServerError m, log))
    ∧ (∀ (a : Route) (o : Oracle) (b p u : JsVal) (m : String) (log : List ExtCall),
      handle a o b p u = (.internalServerError m, log) →
      handlerBody a o b p u [] = (.error m, log)) := by
  constructor
  · intro a o b p u m log h
    simp [handle, h]
  · intro a o b p u m log h
    rcases hb : handlerBody a o b p u [] with ⟨er, lg⟩
    rcases er with m2 | r
    · simp only [handle, hb, Prod.mk.injEq, Resp.internalServerError.injEq] at h
      obtain ⟨hm, hl⟩ := h
      subst hm
      subst hl
      rfl
    · have hni := handlerBody_ok_not_ise a o b p u r lg hb
      simp only [handle, hb] at h
      exact absurd (congrArg Prod.fst h) (by simpa using hni m)

theorem C2_thrown_errors_become_internalServerError_witness :
    handle .getMetal oBoom (.vobj []) pIdA uSeven =
      (.internalServerError "boom",
        [.dbFindOne (.vobj [(.named "_id", .vstr "a")]) (.vobj [])]) :=
  C2_thrown_errors_become_internalServerError.1 .getMetal oBoom (.vobj []) pIdA uSeven
    "boom" [.dbFindOne (.vobj [(.named "_id", .vstr "a")]) (.vobj [])] rfl
